import Mathlib

/-!
# Verification of the TradingBot core against its specification

Shallow embedding of the paper-trading bot (`bot.py`), the drawdown sentinel
(`risk_guard.py`), the status aggregator (`coop_bridge.py`) and the approval
gateway (`agent_service.py`). Python floats are modelled as exact rationals
(`ℚ`); the claims under scrutiny concern branch structure, orderings and exact
comparisons, which agree with the float semantics on the inputs considered.
Python dicts are modelled as association lists in insertion order; file-system
side effects (event logging, control files) are modelled as explicit returned
data.
-/

/-- Strategy parameters read from the module-level `CFG` dict in `bot.py`.
`CFG` is mutable in Python (the risk guard overwrites entries), so every
function that reads it takes a `Cfg` argument. -/
structure Cfg where
  atr_stop_mult : ℚ
  atr_tp_mult : ℚ
  breakeven_rr : ℚ
  risk_per_trade_pct : ℚ
  max_concurrent_positions : ℕ
deriving Repr, DecidableEq

/-- The initial values of `CFG` in `bot.py`. -/
def defaultCfg : Cfg :=
  { atr_stop_mult := 12/10
    atr_tp_mult := 2
    breakeven_rr := 1
    risk_per_trade_pct := 75/10000
    max_concurrent_positions := 4 }

/-- Events appended to the bridge event log (`log_trade_open` /
`log_trade_close` in `bot.py` / `bot_instrumentation.py`), abstracted to the
payload fields the bot computes.  The wall-clock timestamp and the random
file-name suffix are external inputs and are omitted. -/
inductive TradeEvent where
  | openTrade (symbol side : String) (qty price : ℚ) (exchange rationale : String)
  | closeTrade (order_ref symbol : String) (exit_price profit pnl_pct fees : ℚ)
deriving Repr, DecidableEq

/-- ASCII model of Python's `str.lower`. -/
def strLower (s : String) : String := String.mk (s.data.map Char.toLower)

/-- The `Position` object of `bot.py`: an open paper position with its
stop/target prices and the breakeven-arming flag. -/
structure Position where
  symbol : String
  venue : String
  side : String
  entry : ℚ
  qty : ℚ
  atr : ℚ
  rationale : String
  stop : ℚ
  tp : ℚ
  breakeven_armed : Bool
deriving Repr, DecidableEq

/-- `Position._initial_stop`. -/
def initialStop (cfg : Cfg) (side : String) (entry atr_val : ℚ) : ℚ :=
  if side == "long" then entry - cfg.atr_stop_mult * atr_val
  else entry + cfg.atr_stop_mult * atr_val

/-- `Position._initial_tp`. -/
def initialTp (cfg : Cfg) (side : String) (entry atr_val : ℚ) : ℚ :=
  if side == "long" then entry + cfg.atr_tp_mult * atr_val
  else entry - cfg.atr_tp_mult * atr_val

/-- `Position.__init__`: builds the position and synchronously emits the
trade-open event. -/
def Position.make (cfg : Cfg) (symbol venue side : String) (entry atr_val qty : ℚ)
    (rationale : String) : Position × TradeEvent :=
  let sideL := strLower side
  let pos : Position :=
    { symbol := symbol
      venue := venue
      side := sideL
      entry := entry
      qty := qty
      atr := atr_val
      rationale := rationale
      stop := initialStop cfg sideL entry atr_val
      tp := initialTp cfg sideL entry atr_val
      breakeven_armed := false }
  (pos, TradeEvent.openTrade symbol sideL qty entry venue rationale)

/-- `Position.mtm`: unrealized PnL at price `px`. -/
def Position.mtm (pos : Position) (px : ℚ) : ℚ :=
  if pos.side == "long" then (px - pos.entry) * pos.qty
  else (pos.entry - px) * pos.qty

/-- `Position.rr`: reward/risk ratio of the current move. -/
def Position.rr (pos : Position) (cfg : Cfg) (px : ℚ) : ℚ :=
  let risk := cfg.atr_stop_mult * pos.atr
  if risk ≤ 0 then 0
  else (if pos.side == "long" then px - pos.entry else pos.entry - px) / risk

/-- `Position.arm_breakeven_if_ready`: once the reward/risk ratio reaches the
configured threshold, move the stop to a small offset past entry and set the
arm flag.  `1.0002` and `0.9998` are the exact decimal constants of the
source. -/
def Position.arm_breakeven_if_ready (pos : Position) (cfg : Cfg) (px : ℚ) : Position :=
  if pos.breakeven_armed = false ∧ cfg.breakeven_rr ≤ pos.rr cfg px then
    { pos with
      stop := pos.entry * (if pos.side == "long" then 10002/10000 else 9998/10000)
      breakeven_armed := true }
  else pos

/-- `Position.exit_reason`: stop checked before target, per side. -/
def Position.exit_reason (pos : Position) (px : ℚ) : Option (String × ℚ) :=
  if pos.side == "long" then
    if px ≤ pos.stop then some ("stop", pos.stop)
    else if pos.tp ≤ px then some ("tp", pos.tp)
    else none
  else
    if pos.stop ≤ px then some ("stop", pos.stop)
    else if px ≤ pos.tp then some ("tp", pos.tp)
    else none

/-- The stop condition of `Position.exit_reason`, by side. -/
def stopHit (pos : Position) (px : ℚ) : Prop :=
  if pos.side == "long" then px ≤ pos.stop else pos.stop ≤ px

/-- The target condition of `Position.exit_reason`, by side. -/
def targetHit (pos : Position) (px : ℚ) : Prop :=
  if pos.side == "long" then pos.tp ≤ px else px ≤ pos.tp

instance (pos : Position) (px : ℚ) : Decidable (stopHit pos px) := by
  unfold stopHit; infer_instance

instance (pos : Position) (px : ℚ) : Decidable (targetHit pos px) := by
  unfold targetHit; infer_instance

/-- C2: the exit check evaluates the stop condition before the target
condition and returns the first one triggered: the stop outcome with the stop
price whenever the stop condition holds — in particular when stop and target
would both fire on the same tick — the target outcome only when the stop
condition fails, and nothing otherwise. -/
theorem exit_reason_stop_priority (pos : Position) (px : ℚ) :
    (stopHit pos px → pos.exit_reason px = some ("stop", pos.stop)) ∧
    (¬ stopHit pos px → targetHit pos px → pos.exit_reason px = some ("tp", pos.tp)) ∧
    (¬ stopHit pos px → ¬ targetHit pos px → pos.exit_reason px = none) := by
  refine ⟨fun h1 => ?_, fun h1 h2 => ?_, fun h1 h2 => ?_⟩ <;>
    unfold Position.exit_reason <;>
    unfold stopHit at h1 <;>
    by_cases hs : pos.side == "long"
  · rw [if_pos hs] at h1 ⊢
    rw [if_pos h1]
  · rw [if_neg hs] at h1 ⊢
    rw [if_pos h1]
  · unfold targetHit at h2
    rw [if_pos hs] at h1 h2 ⊢
    rw [if_neg h1, if_pos h2]
  · unfold targetHit at h2
    rw [if_neg hs] at h1 h2 ⊢
    rw [if_neg h1, if_pos h2]
  · unfold targetHit at h2
    rw [if_pos hs] at h1 h2 ⊢
    rw [if_neg h1, if_neg h2]
  · unfold targetHit at h2
    rw [if_neg hs] at h1 h2 ⊢
    rw [if_neg h1, if_neg h2]

/-- A long position whose breakeven-armed stop sits above the target, so that
one tick satisfies the stop and the target condition at once. -/
def tiePos : Position :=
  { symbol := "BTCUSDT"
    venue := "bitget"
    side := "long"
    entry := 100
    qty := 1
    atr := 1
    rationale := "tie"
    stop := 102
    tp := 101
    breakeven_armed := true }

/-- An unarmed long position with stop below and target above entry. -/
def normPos : Position :=
  { symbol := "SPY"
    venue := "alpaca"
    side := "long"
    entry := 100
    qty := 2
    atr := 2
    rationale := "cross"
    stop := 98
    tp := 104
    breakeven_armed := false }

theorem exit_reason_stop_priority_witness :
    tiePos.exit_reason 101 = some ("stop", tiePos.stop) ∧
    normPos.exit_reason 105 = some ("tp", normPos.tp) ∧
    normPos.exit_reason 100 = none :=
  ⟨(exit_reason_stop_priority tiePos 101).1 (by decide),
   (exit_reason_stop_priority normPos 105).2.1 (by decide) (by decide),
   (exit_reason_stop_priority normPos 100).2.2 (by decide) (by decide)⟩

/-- Helper: on an already-armed position, `arm_breakeven_if_ready` returns the
position unchanged. -/
theorem arm_noop_of_armed (p : Position) (cfg : Cfg) (px : ℚ)
    (h : p.breakeven_armed = true) : p.arm_breakeven_if_ready cfg px = p := by
  unfold Position.arm_breakeven_if_ready
  rw [if_neg]
  intro hc
  rw [h] at hc
  exact absurd hc.1 (by simp)

/-- C6: `arm_breakeven_if_ready` is idempotent: as soon as the arm flag is
set after a call, any further call at any price and any configuration leaves
the position (stop and flag included) unchanged. -/
theorem arm_breakeven_idempotent (pos : Position) (cfg cfg' : Cfg) (px px' : ℚ)
    (h : (pos.arm_breakeven_if_ready cfg px).breakeven_armed = true) :
    (pos.arm_breakeven_if_ready cfg px).arm_breakeven_if_ready cfg' px'
      = pos.arm_breakeven_if_ready cfg px :=
  arm_noop_of_armed _ cfg' px' h

theorem arm_breakeven_idempotent_witness :
    (tiePos.arm_breakeven_if_ready defaultCfg (1012/10)).arm_breakeven_if_ready defaultCfg 50
      = tiePos.arm_breakeven_if_ready defaultCfg (1012/10) :=
  arm_breakeven_idempotent tiePos defaultCfg defaultCfg (1012/10) 50 (by decide)

/-- Python's `round` (banker's rounding, half to even), used for whole-unit
venues. -/
def pyRound (q : ℚ) : ℚ :=
  let f : ℤ := ⌊q⌋
  let r : ℚ := q - f
  if r < 1/2 then (f : ℚ)
  else if 1/2 < r then ((f : ℚ) + 1)
  else if f % 2 = 0 then (f : ℚ) else ((f : ℚ) + 1)

/-- Lookup in an association list modelling a Python dict keyed by
`venue:symbol` strings (`self.positions`). -/
def lookupKey (k : String) : List (String × Position) → Option Position
  | [] => none
  | (a, v) :: t => if a = k then some v else lookupKey k t

/-- In-place mutation of the dict value at key `k` (Python mutates the
`Position` object stored in the dict). -/
def updateVal (k : String) (v : Position) (l : List (String × Position)) :
    List (String × Position) :=
  l.map fun p => if p.1 = k then (p.1, v) else p

/-- The `Portfolio` object of `bot.py`.  UTC dates are abstracted as
integers; the wall clock enters `mark_to_market` as the `today` argument. -/
structure Portfolio where
  equity : ℚ
  peak : ℚ
  max_dd : ℚ
  day_start_date : ℤ
  day_start_eq : ℚ
  positions : List (String × Position)

/-- `Portfolio.__init__`. -/
def Portfolio.init (start_eq : ℚ) (today : ℤ) : Portfolio :=
  { equity := start_eq
    peak := start_eq
    max_dd := 0
    day_start_date := today
    day_start_eq := start_eq
    positions := [] }

/-- `Portfolio.key`. -/
def Portfolio.key (venue symbol : String) : String := venue ++ ":" ++ symbol

/-- `Portfolio.day_pnl_pct`. -/
def Portfolio.day_pnl_pct (pf : Portfolio) : ℚ :=
  let base := max (1/1000000000) pf.day_start_eq
  (pf.equity - base) / base * 100

/-- `Portfolio.mark_to_market`: recomputes equity from `PAPER_CAPITAL` (`cap`)
plus unrealized PnL over priced positions, updates the peak and the running
max-drawdown, and rolls the day-start equity on a UTC day change. -/
def Portfolio.mark_to_market (cap : ℚ) (today : ℤ) (prices : String → Option ℚ)
    (pf : Portfolio) : Portfolio :=
  let total := (pf.positions.map fun p =>
    match prices p.1 with
    | none => 0
    | some px => p.2.mtm px).sum
  let equity := cap + total
  let peak := max pf.peak equity
  let max_dd := if 0 < peak then max pf.max_dd ((peak - equity) / peak * 100) else pf.max_dd
  if today ≠ pf.day_start_date then
    { pf with
      equity := equity
      peak := peak
      max_dd := max_dd
      day_start_date := today
      day_start_eq := equity }
  else
    { pf with equity := equity, peak := peak, max_dd := max_dd }

/-- `Portfolio.open_position`: no-op when the `venue:symbol` key is already
present or the stop distance is non-positive; otherwise sizes the position,
stores it under the key and emits the trade-open event. -/
def Portfolio.open_position (cfg : Cfg) (cap : ℚ) (venue symbol side : String)
    (entry atr_val : ℚ) (rationale : String) (pf : Portfolio) :
    Portfolio × List TradeEvent :=
  let k := Portfolio.key venue symbol
  if (lookupKey k pf.positions).isSome then (pf, [])
  else
    let risk_eur := cap * cfg.risk_per_trade_pct
    let stop_dist := cfg.atr_stop_mult * atr_val
    if stop_dist ≤ 0 then (pf, [])
    else
      let qty0 := max (1/1000000) (risk_eur / stop_dist)
      let qty := if venue == "alpaca" then max 1 (pyRound qty0) else qty0
      let pe := Position.make cfg symbol venue side entry atr_val qty rationale
      ({ pf with positions := pf.positions ++ [(k, pe.1)] }, [pe.2])

/-- `Portfolio.maybe_exit`: arms the breakeven stop, checks the exit
conditions and, if one fires, emits the trade-close event and deletes the
position.  The order reference string drops its wall-clock component. -/
def Portfolio.maybe_exit (cfg : Cfg) (venue symbol : String) (px : ℚ)
    (pf : Portfolio) : Portfolio × List TradeEvent :=
  let k := Portfolio.key venue symbol
  match lookupKey k pf.positions with
  | none => (pf, [])
  | some pos0 =>
    let pos := pos0.arm_breakeven_if_ready cfg px
    let positions1 := updateVal k pos pf.positions
    match pos.exit_reason px with
    | none => ({ pf with positions := positions1 }, [])
    | some re =>
      let profit := pos.mtm re.2
      let notional := max (1/1000000000) (pos.entry * pos.qty)
      let pnl_pct := profit / notional * 100
      ({ pf with positions := positions1.eraseP fun p => p.1 == k },
       [TradeEvent.closeTrade (venue ++ "-" ++ symbol) symbol re.2 profit pnl_pct 0])

/-- One iteration step of the main loop as it affects the portfolio: an
accepted entry signal, a tick driving the exit logic, or a mark-to-market
pass. -/
inductive BotOp where
  | entry (venue symbol side : String) (px atr_val : ℚ) (rationale : String)
  | tick (venue symbol : String) (px : ℚ)
  | mtm (today : ℤ) (prices : String → Option ℚ)

/-- Apply one loop step to the portfolio. -/
def applyOp (cfg : Cfg) (cap : ℚ) (pf : Portfolio) : BotOp → Portfolio
  | .entry venue symbol side px a r => (pf.open_position cfg cap venue symbol side px a r).1
  | .tick venue symbol px => (pf.maybe_exit cfg venue symbol px).1
  | .mtm today prices => pf.mark_to_market cap today prices

/-- Sequential processing of loop steps, as the endless loop in `main` does. -/
def runOps (cfg : Cfg) (cap : ℚ) : List BotOp → Portfolio → Portfolio
  | [], pf => pf
  | op :: t, pf => runOps cfg cap t (applyOp cfg cap pf op)

/-- C4: every `mark_to_market` call can only grow the running max-drawdown,
whatever the price map, so it is non-decreasing over the lifetime of a
`Portfolio` instance. -/
theorem max_drawdown_monotone (cap : ℚ) (today : ℤ) (prices : String → Option ℚ)
    (pf : Portfolio) : pf.max_dd ≤ (pf.mark_to_market cap today prices).max_dd := by
  unfold Portfolio.mark_to_market
  dsimp only
  split
  · dsimp only
    split
    · exact le_max_left _ _
    · exact le_rfl
  · dsimp only
    split
    · exact le_max_left _ _
    · exact le_rfl

/-- Helper: a key absent from `lookupKey` is not among the association-list
keys. -/
theorem lookupKey_none_not_mem (k : String) :
    ∀ l : List (String × Position), lookupKey k l = none → k ∉ l.map Prod.fst := by
  intro l
  induction l with
  | nil => intro _ h; simp at h
  | cons p t ih =>
    intro h hm
    rw [lookupKey] at h
    by_cases hk : p.1 = k
    · rw [if_pos hk] at h; exact Option.some_ne_none _ h
    · rw [if_neg hk] at h
      rcases List.mem_cons.mp hm with h1 | h1
      · exact hk h1.symm
      · exact ih h h1

/-- Helper: `updateVal` leaves the key sequence unchanged. -/
theorem map_fst_updateVal (k : String) (v : Position) :
    ∀ l : List (String × Position), (updateVal k v l).map Prod.fst = l.map Prod.fst := by
  intro l
  induction l with
  | nil => rfl
  | cons p t ih =>
    rw [updateVal, List.map_cons, List.map_cons, List.map_cons]
    rw [updateVal] at ih
    rw [ih]
    by_cases hk : p.1 = k
    · rw [if_pos hk]
    · rw [if_neg hk]

/-- The one-position-per-key invariant: the dict keys are pairwise
distinct. -/
def uniqueKeys (pf : Portfolio) : Prop := (pf.positions.map Prod.fst).Nodup

instance (pf : Portfolio) : Decidable (uniqueKeys pf) := by
  unfold uniqueKeys; infer_instance

/-- Helper: `open_position` preserves key uniqueness. -/
theorem open_position_preserves_uniqueKeys (cfg : Cfg) (cap : ℚ)
    (venue symbol side : String) (entry atr_val : ℚ) (rationale : String)
    (pf : Portfolio) (h : uniqueKeys pf) :
    uniqueKeys (pf.open_position cfg cap venue symbol side entry atr_val rationale).1 := by
  unfold Portfolio.open_position
  dsimp only
  by_cases hl : (lookupKey (Portfolio.key venue symbol) pf.positions).isSome
  · rw [if_pos hl]; exact h
  · rw [if_neg hl]
    by_cases hs : cfg.atr_stop_mult * atr_val ≤ 0
    · rw [if_pos hs]; exact h
    · rw [if_neg hs]
      unfold uniqueKeys at h ⊢
      dsimp only
      rw [List.map_append]
      apply List.Nodup.append h (by simp)
      intro x hx hx2
      simp only [List.map_cons, List.map_nil, List.mem_singleton] at hx2
      subst hx2
      exact lookupKey_none_not_mem _ _ (Option.not_isSome_iff_eq_none.mp hl) hx

/-- Helper: `maybe_exit` preserves key uniqueness. -/
theorem maybe_exit_preserves_uniqueKeys (cfg : Cfg) (venue symbol : String) (px : ℚ)
    (pf : Portfolio) (h : uniqueKeys pf) :
    uniqueKeys (pf.maybe_exit cfg venue symbol px).1 := by
  unfold Portfolio.maybe_exit
  dsimp only
  cases hl : lookupKey (Portfolio.key venue symbol) pf.positions with
  | none => exact h
  | some pos0 =>
    dsimp only
    cases hex : (pos0.arm_breakeven_if_ready cfg px).exit_reason px with
    | none =>
      unfold uniqueKeys at h ⊢
      dsimp only
      rw [map_fst_updateVal]
      exact h
    | some re =>
      unfold uniqueKeys at h ⊢
      dsimp only
      apply List.Nodup.sublist (List.Sublist.map _ (List.eraseP_sublist _))
      rw [map_fst_updateVal]
      exact h

/-- Helper: every loop step preserves key uniqueness. -/
theorem applyOp_preserves_uniqueKeys (cfg : Cfg) (cap : ℚ) (pf : Portfolio)
    (op : BotOp) (h : uniqueKeys pf) : uniqueKeys (applyOp cfg cap pf op) := by
  cases op with
  | entry venue symbol side px a r =>
    exact open_position_preserves_uniqueKeys cfg cap venue symbol side px a r pf h
  | tick venue symbol px => exact maybe_exit_preserves_uniqueKeys cfg venue symbol px pf h
  | mtm today prices =>
    unfold uniqueKeys at h ⊢
    unfold applyOp Portfolio.mark_to_market
    dsimp only
    split <;> exact h

/-- Helper: key uniqueness is preserved along any run of loop steps. -/
theorem runOps_preserves_uniqueKeys (cfg : Cfg) (cap : ℚ) :
    ∀ (ops : List BotOp) (pf : Portfolio), uniqueKeys pf →
      uniqueKeys (runOps cfg cap ops pf) := by
  intro ops
  induction ops with
  | nil => intro pf h; exact h
  | cons op t ih =>
    intro pf h
    rw [runOps]
    exact ih _ (applyOp_preserves_uniqueKeys cfg cap pf op h)

/-- C1: starting from distinct position keys, any sequence of ticks,
mark-to-market passes and accepted entry signals keeps at most one open
position per `venue:symbol` key; and `open_position` on an occupied key
returns the portfolio unchanged and emits no trade-open event. -/
theorem one_position_per_key (cfg : Cfg) (cap : ℚ) (ops : List BotOp) (pf : Portfolio)
    (h : uniqueKeys pf) :
    uniqueKeys (runOps cfg cap ops pf) ∧
    ∀ venue symbol side entry atr_val rationale,
      (lookupKey (Portfolio.key venue symbol) pf.positions).isSome →
      pf.open_position cfg cap venue symbol side entry atr_val rationale = (pf, []) := by
  refine ⟨runOps_preserves_uniqueKeys cfg cap ops pf h, ?_⟩
  intro venue symbol side entry atr_val rationale hk
  unfold Portfolio.open_position
  dsimp only
  rw [if_pos hk]

/-- A portfolio holding one open position under key `bitget:BTCUSDT`. -/
def wPf : Portfolio :=
  { equity := 10000
    peak := 10000
    max_dd := 0
    day_start_date := 0
    day_start_eq := 10000
    positions := [(Portfolio.key "bitget" "BTCUSDT", tiePos)] }

/-- A sample run: one tick and one accepted entry signal on a second key. -/
def wOps : List BotOp :=
  [BotOp.tick "bitget" "BTCUSDT" 99,
   BotOp.entry "bitget" "ETHUSDT" "long" 100 1 "cross"]

theorem one_position_per_key_witness :
    uniqueKeys (runOps defaultCfg 10000 wOps wPf) ∧
    wPf.open_position defaultCfg 10000 "bitget" "BTCUSDT" "long" 100 1 "cross"
      = (wPf, []) := by
  have h := one_position_per_key defaultCfg 10000 wOps wPf (by decide)
  exact ⟨h.1, h.2 "bitget" "BTCUSDT" "long" 100 1 "cross" (by decide)⟩

/-- One exposure entry of a position snapshot (`snapshot_logs` in `bot.py`,
consumed by `worst_offenders` in `risk_guard.py`). -/
structure Exposure where
  symbol : String
  direction : String
  notional_eur : ℚ
  risk_pct : ℚ
deriving Repr, DecidableEq

/-- A position snapshot as read by the sentinel (`latest_snapshot`). -/
structure Snapshot where
  exposures : List Exposure
deriving Repr, DecidableEq

/-- Stable insertion for Python's `sorted(..., key=notional, reverse=True)`:
walk past strictly larger notionals, then insert before the first
less-or-equal one, keeping the original order of equal keys. -/
def insertByNotional (x : Exposure) : List Exposure → List Exposure
  | [] => [x]
  | y :: ys =>
    if x.notional_eur < y.notional_eur then y :: insertByNotional x ys
    else x :: y :: ys

/-- `sorted(exposures, key=lambda e: e["notional_eur"], reverse=True)`. -/
def sortByNotionalDesc (l : List Exposure) : List Exposure :=
  l.foldr insertByNotional []

/-- `worst_offenders` in `risk_guard.py`: with no live PnL available, rank the
snapshot's exposures by notional descending and keep the top-`topn`
symbols. -/
def rg_worst_offenders (snap : Option Snapshot) (topn : ℕ) : List String :=
  match snap with
  | none => []
  | some s => ((sortByNotionalDesc s.exposures).take topn).map Exposure.symbol

/-- The conservative tuning override the sentinel proposes (`propose_tuning`
in `risk_guard.py`). -/
structure Tuning where
  risk_per_trade_pct : ℚ
  atr_stop_mult : ℚ
  atr_tp_mult : ℚ
  max_concurrent_positions : ℕ
deriving Repr, DecidableEq

/-- `propose_tuning`: 0.5% risk, wider stop, fewer concurrent positions. -/
def proposeTuning : Tuning :=
  { risk_per_trade_pct := 1/200
    atr_stop_mult := 8/5
    atr_tp_mult := 11/5
    max_concurrent_positions := 2 }

/-- A `guard_alert_*.json` report (`write_alert_report`). -/
structure GuardAlert where
  kind : String
  offenders : List String
  tuning : Tuning
deriving Repr, DecidableEq

/-- The control and report files one sentinel poll cycle writes
(`write_control` plus `write_alert_report`): the pause flag in `mode.json`,
`force_close.json` (only written when the symbol list is non-empty),
`tuning.json`, and alert reports. -/
structure SentinelOutput where
  pause_new_signals : Bool
  force_close : Option (List String)
  tuning : Option Tuning
  alerts : List GuardAlert
deriving Repr, DecidableEq

/-- The trigger decision of the sentinel's `main` loop: only the rolling
max-drawdown is compared (`max_dd >= MAX_DD_LIMIT`); the day-loss limit is
left as a source comment and never checked. -/
def sentinelTrigger (max_dd_limit max_dd : ℚ) : Option String :=
  if max_dd_limit ≤ max_dd then some "MAX_DRAWDOWN_EXCEEDED" else none

/-- One poll cycle of `main` in `risk_guard.py` after a fresh status update:
on a trigger, pause entries, direct force-closure of the worst offenders,
propose conservative tuning and write an alert; otherwise clear the pause. -/
def sentinelCycle (max_dd_limit max_dd : ℚ) (snap : Option Snapshot) : SentinelOutput :=
  match sentinelTrigger max_dd_limit max_dd with
  | some kind =>
    let offenders := rg_worst_offenders snap 2
    { pause_new_signals := true
      force_close := if offenders.isEmpty then none else some offenders
      tuning := some proposeTuning
      alerts := [{ kind := kind, offenders := offenders, tuning := proposeTuning }] }
  | none =>
    { pause_new_signals := false, force_close := none, tuning := none, alerts := [] }

/-- The breach condition exactly as the specification words it: drawdown at
or above the limit, or day PnL at or below the (negative) day-loss limit. -/
def specBreachCondition (dd_limit day_limit max_dd day_pnl : ℚ) : Prop :=
  dd_limit ≤ max_dd ∨ day_pnl ≤ day_limit

/-- The breach test of the integrated guard in `bot.py` `main`:
`(max_dd > MAX_DD_LIMIT) or (day_pnl < DAY_LOSS_LIMIT)`, both strict. -/
def botBreached (dd_limit day_limit max_dd day_pnl : ℚ) : Prop :=
  dd_limit < max_dd ∨ day_pnl < day_limit

/-- An example snapshot with two exposures. -/
def exSnap : Snapshot :=
  { exposures :=
      [{ symbol := "BTCUSDT", direction := "long", notional_eur := 500, risk_pct := 3/4 },
       { symbol := "SPY", direction := "long", notional_eur := 1200, risk_pct := 3/4 }] }

/-- C3 fails on the code: at the default limits (8% drawdown, −3% day loss),
a day PnL of −10% with zero drawdown satisfies the claimed breach condition,
yet the sentinel detects nothing (pause cleared, no alert) because it never
consults day PnL; and at drawdown exactly 8% the integrated guard in
`bot.py` does not breach either, because its comparison is strict. -/
theorem sentinel_breach_claim_counterexample :
    specBreachCondition 8 (-3) 0 (-10) ∧
    (sentinelCycle 8 0 (some exSnap)).pause_new_signals = false ∧
    (sentinelCycle 8 0 (some exSnap)).alerts = [] ∧
    specBreachCondition 8 (-3) 8 0 ∧
    ¬ botBreached 8 (-3) 8 0 := by
  refine ⟨Or.inr (by norm_num), by decide, by decide, Or.inl le_rfl, ?_⟩
  rintro (h | h) <;> norm_num at h

/-- C3 (amended): the sentinel detects a breach exactly when the rolling
max-drawdown is at or above the configured limit — the day-PnL disjunct is
not implemented — and a drawdown exactly equal to the limit does trigger the
full reaction: pause directive, force-close directive for the worst
offenders (when any), conservative tuning override and alert; with no breach
the pause directive is cleared. -/
theorem sentinel_breach_exactly_on_drawdown (lim max_dd : ℚ) (snap : Option Snapshot) :
    ((sentinelCycle lim max_dd snap).pause_new_signals = true ↔ lim ≤ max_dd) ∧
    (lim ≤ max_dd →
      (sentinelCycle lim max_dd snap).tuning = some proposeTuning ∧
      (sentinelCycle lim max_dd snap).alerts
        = [{ kind := "MAX_DRAWDOWN_EXCEEDED", offenders := rg_worst_offenders snap 2,
             tuning := proposeTuning }] ∧
      (sentinelCycle lim max_dd snap).force_close
        = (if (rg_worst_offenders snap 2).isEmpty then none
           else some (rg_worst_offenders snap 2))) ∧
    (¬ lim ≤ max_dd →
      sentinelCycle lim max_dd snap
        = { pause_new_signals := false, force_close := none, tuning := none,
            alerts := [] }) := by
  by_cases h : lim ≤ max_dd
  · have ht : sentinelTrigger lim max_dd = some "MAX_DRAWDOWN_EXCEEDED" := by
      unfold sentinelTrigger; rw [if_pos h]
    unfold sentinelCycle
    rw [ht]
    exact ⟨⟨fun _ => h, fun _ => rfl⟩, fun _ => ⟨rfl, rfl, rfl⟩, fun hn => absurd h hn⟩
  · have ht : sentinelTrigger lim max_dd = none := by
      unfold sentinelTrigger; rw [if_neg h]
    unfold sentinelCycle
    rw [ht]
    exact ⟨⟨fun hp => absurd hp (by simp), fun hl => absurd hl h⟩,
      fun hl => absurd hl h, fun _ => rfl⟩

theorem sentinel_breach_exactly_on_drawdown_witness :
    (sentinelCycle 8 8 (some exSnap)).pause_new_signals = true ∧
    (sentinelCycle 8 8 (some exSnap)).tuning = some proposeTuning ∧
    (sentinelCycle 8 8 (some exSnap)).alerts
      = [{ kind := "MAX_DRAWDOWN_EXCEEDED",
           offenders := rg_worst_offenders (some exSnap) 2, tuning := proposeTuning }] ∧
    sentinelCycle 8 7 (some exSnap)
      = { pause_new_signals := false, force_close := none, tuning := none,
          alerts := [] } := by
  have h8 := sentinel_breach_exactly_on_drawdown 8 8 (some exSnap)
  have h7 := sentinel_breach_exactly_on_drawdown 8 7 (some exSnap)
  exact ⟨h8.1.mpr le_rfl, (h8.2.1 le_rfl).1, (h8.2.1 le_rfl).2.1,
    h7.2.2 (by norm_num)⟩

/-- Helper: `insertByNotional` inserts its element, permuting nothing else. -/
theorem insertByNotional_perm (x : Exposure) :
    ∀ l : List Exposure, (insertByNotional x l).Perm (x :: l) := by
  intro l
  induction l with
  | nil => exact List.Perm.refl _
  | cons y ys ih =>
    rw [insertByNotional]
    by_cases hc : x.notional_eur < y.notional_eur
    · rw [if_pos hc]
      exact (List.Perm.cons y ih).trans (List.Perm.swap x y ys)
    · rw [if_neg hc]

/-- Helper: `insertByNotional` preserves the descending-notional chain. -/
theorem insertByNotional_chain (x : Exposure) :
    ∀ l : List Exposure,
      List.Chain' (fun a b => b.notional_eur ≤ a.notional_eur) l →
      List.Chain' (fun a b => b.notional_eur ≤ a.notional_eur) (insertByNotional x l) := by
  intro l
  induction l with
  | nil => intro _; simp [insertByNotional]
  | cons y ys ih =>
    intro h
    rw [insertByNotional]
    by_cases hc : x.notional_eur < y.notional_eur
    · rw [if_pos hc]
      refine List.chain'_cons'.mpr ⟨?_, ih h.tail⟩
      intro z hz
      cases ys with
      | nil =>
        simp [insertByNotional] at hz
        rw [← hz]
        exact le_of_lt hc
      | cons a t =>
        rw [insertByNotional] at hz
        by_cases hc2 : x.notional_eur < a.notional_eur
        · rw [if_pos hc2] at hz
          simp at hz
          rw [← hz]
          exact (List.chain'_cons.mp h).1
        · rw [if_neg hc2] at hz
          simp at hz
          rw [← hz]
          exact le_of_lt hc
    · rw [if_neg hc]
      exact List.chain'_cons.mpr ⟨le_of_not_lt hc, h⟩

/-- Helper: the sort is a permutation of its input. -/
theorem sortByNotionalDesc_perm (l : List Exposure) : (sortByNotionalDesc l).Perm l := by
  induction l with
  | nil => exact List.Perm.refl _
  | cons x xs ih =>
    unfold sortByNotionalDesc at ih ⊢
    rw [List.foldr_cons]
    exact (insertByNotional_perm x _).trans (List.Perm.cons x ih)

/-- Helper: the sort output is descending in notional. -/
theorem sortByNotionalDesc_chain (l : List Exposure) :
    List.Chain' (fun a b => b.notional_eur ≤ a.notional_eur) (sortByNotionalDesc l) := by
  induction l with
  | nil => simp [sortByNotionalDesc]
  | cons x xs ih =>
    unfold sortByNotionalDesc at ih ⊢
    rw [List.foldr_cons]
    exact insertByNotional_chain x _ ih

/-- C8: with no live PnL, offender selection is exactly the snapshot's
exposures reordered descending by notional with the top-N symbols kept; in
particular, of two candidates with notionals 500 and 1200 (in either input
order) the 1200-notional symbol is selected first. -/
theorem worst_offenders_notional_ranking (l : List Exposure) (a b : String) :
    (sortByNotionalDesc l).Perm l ∧
    List.Chain' (fun x y => y.notional_eur ≤ x.notional_eur) (sortByNotionalDesc l) ∧
    rg_worst_offenders
      (some { exposures :=
        [{ symbol := a, direction := "long", notional_eur := 500, risk_pct := 0 },
         { symbol := b, direction := "short", notional_eur := 1200, risk_pct := 0 }] }) 2
      = [b, a] ∧
    rg_worst_offenders
      (some { exposures :=
        [{ symbol := b, direction := "short", notional_eur := 1200, risk_pct := 0 },
         { symbol := a, direction := "long", notional_eur := 500, risk_pct := 0 }] }) 2
      = [b, a] := by
  refine ⟨sortByNotionalDesc_perm l, sortByNotionalDesc_chain l, ?_, ?_⟩ <;>
    norm_num [rg_worst_offenders, sortByNotionalDesc, insertByNotional]

/-- A trade event record as read back from the event log by
`compute_trade_metrics` in `coop_bridge.py`, with the fields that function
touches. -/
structure Trade where
  event : String
  profit : ℚ
  fees : ℚ
deriving Repr, DecidableEq

/-- Accumulator of the equity-replay loop inside `compute_trade_metrics`. -/
structure EqAcc where
  equity : ℚ
  peak : ℚ
  max_dd : ℚ
deriving Repr, DecidableEq

/-- One step of the equity replay: apply a PnL increment, update the peak and
the running drawdown maximum. -/
def ddStep (acc : EqAcc) (p : ℚ) : EqAcc :=
  let equity := acc.equity + p
  let peak := max acc.peak equity
  let dd := if 0 < peak then (peak - equity) / peak else 0
  { equity := equity, peak := peak, max_dd := max acc.max_dd dd }

/-- `compute_trade_metrics`: returns
`(realized_pnl, profit_factor, winrate, max_drawdown_pct)` from the close
events.  `1e-9` is the safe fallback denominator when there are no losing
trades. -/
def compute_trade_metrics (cap : ℚ) (trades : List Trade) : ℚ × ℚ × ℚ × ℚ :=
  let closes := trades.filter fun t => t.event == "close"
  if closes = [] then (0, 0, 0, 0)
  else
    let pnl_list := closes.map fun t => t.profit - t.fees
    let wins := pnl_list.filter fun p => 0 < p
    let losses := (pnl_list.filter fun p => p < 0).map abs
    let realized_pnl := pnl_list.sum
    let profit_factor :=
      if losses = [] then wins.sum / (1/1000000000) else wins.sum / losses.sum
    let winrate := ((wins.length : ℚ) / (pnl_list.length : ℚ)) * 100
    let acc := pnl_list.foldl ddStep { equity := cap, peak := cap, max_dd := 0 }
    (realized_pnl, profit_factor, winrate, acc.max_dd * 100)

/-- C5: with at least one close event and no losing trade, the profit factor
is the gross winning PnL divided by the safe fallback constant `1e-9` — the
zero-denominator branch is never taken and nothing is raised. -/
theorem profit_factor_no_losses (cap : ℚ) (trades : List Trade)
    (h1 : trades.filter (fun t => t.event == "close") ≠ [])
    (h2 : ((trades.filter (fun t => t.event == "close")).map
            (fun t => t.profit - t.fees)).filter (fun p => p < 0) = []) :
    (compute_trade_metrics cap trades).2.1
      = (((trades.filter (fun t => t.event == "close")).map
            (fun t => t.profit - t.fees)).filter (fun p => 0 < p)).sum
          / (1/1000000000) := by
  simp only [compute_trade_metrics]
  rw [if_neg h1, h2]
  simp

/-- One open and one winning close event. -/
def exTrades : List Trade :=
  [{ event := "open", profit := 0, fees := 0 },
   { event := "close", profit := 5, fees := 1 }]

theorem profit_factor_no_losses_witness :
    (compute_trade_metrics 10000 exTrades).2.1
      = (((exTrades.filter (fun t => t.event == "close")).map
            (fun t => t.profit - t.fees)).filter (fun p => 0 < p)).sum
          / (1/1000000000) :=
  profit_factor_no_losses 10000 exTrades (by decide)
    (by norm_num [exTrades, List.filter])

/-- C10: with no close events at all, `compute_trade_metrics` returns exactly
`(0, 0, 0, 0)` — in particular profit factor 0, not the no-loss sentinel. -/
theorem metrics_zero_without_closes (cap : ℚ) (trades : List Trade)
    (h : trades.filter (fun t => t.event == "close") = []) :
    compute_trade_metrics cap trades = (0, 0, 0, 0) := by
  simp only [compute_trade_metrics]
  rw [if_pos h]

/-- A trade log holding only an open event. -/
def exOpenOnly : List Trade := [{ event := "open", profit := 3, fees := 0 }]

theorem metrics_zero_without_closes_witness :
    compute_trade_metrics 10000 exOpenOnly = (0, 0, 0, 0) :=
  metrics_zero_without_closes 10000 exOpenOnly (by decide)

/-- The rolling SMA of pandas, `series.rolling(window=n, min_periods=n).mean()`,
at index `i`: `NaN` (modelled as `none`) until `n` observations are in the
window, then the mean of the last `n` closes ending at `i`. -/
def smaAt (closes : List ℚ) (n i : ℕ) : Option ℚ :=
  if n ≤ i + 1 then some (((closes.drop (i + 1 - n)).take n).sum / (n : ℚ)) else none

/-- `signal_from_bars` in `bot.py`: length guard, then the
`f.isna().any() or s.isna().any()` guard over the *whole* SMA series, then
the crossing test on the last two bars. -/
def signal_from_bars (closes : List ℚ) (fast slow : ℕ) : Option String :=
  if closes.length < max fast slow + 2 then none
  else if ((List.range closes.length).any fun i => (smaAt closes fast i).isNone)
       || ((List.range closes.length).any fun i => (smaAt closes slow i).isNone) then none
  else
    match smaAt closes fast (closes.length - 2), smaAt closes fast (closes.length - 1),
          smaAt closes slow (closes.length - 2), smaAt closes slow (closes.length - 1) with
    | some f_prev, some f_curr, some s_prev, some s_curr =>
      if f_prev ≤ s_prev ∧ s_curr < f_curr then some "long"
      else if s_prev ≤ f_prev ∧ f_curr < s_curr then some "short"
      else none
    | _, _, _, _ => none

/-- A five-bar close series whose fast SMA(2) crosses above the slow SMA(3)
on the last two bars. -/
def exCloses : List ℚ := [10, 10, 10, 1, 100]

/-- C7 evidence: on `exCloses` with fast window 2 and slow window 3 the series
has the minimum length `max(2,3) + 2 = 5` and both last-two-bar windows are
complete, with the fast SMA crossing from below (`11/2 ≤ 7`) to above
(`37 < 101/2`) — the specified long signal — yet `signal_from_bars` returns
no signal: the warm-up `NaN`s at the head of the rolling series make
`isna().any()` true on every input with a window ≥ 2. -/
theorem signal_from_bars_misses_crossing :
    signal_from_bars exCloses 2 3 = none ∧
    smaAt exCloses 2 3 = some (11/2) ∧ smaAt exCloses 3 3 = some 7 ∧
    smaAt exCloses 2 4 = some (101/2) ∧ smaAt exCloses 3 4 = some 37 ∧
    ((11:ℚ)/2 ≤ 7 ∧ (37:ℚ) < 101/2) := by
  refine ⟨by decide, ?_, ?_, ?_, ?_, by norm_num⟩ <;>
    norm_num [smaAt, exCloses]

/-- The crossing detector is dead code: for every close series and every pair
of window lengths pandas accepts, `signal_from_bars` returns no signal —
either the length guard fires, or a warm-up `NaN` trips the any-`NaN` guard
(window ≥ 2), or fast and slow SMA coincide (both windows 1). -/
theorem signal_from_bars_always_none (closes : List ℚ) (fast slow : ℕ)
    (hf : 1 ≤ fast) (hs : 1 ≤ slow) :
    signal_from_bars closes fast slow = none := by
  unfold signal_from_bars
  by_cases hlen : closes.length < max fast slow + 2
  · rw [if_pos hlen]
  · rw [if_neg hlen]
    push_neg at hlen
    have hpos : 0 < closes.length := by omega
    by_cases h2 : 2 ≤ slow
    · have hnone : smaAt closes slow 0 = none := by
        unfold smaAt
        rw [if_neg (by omega)]
      have hany : ((List.range closes.length).any
          fun i => (smaAt closes slow i).isNone) = true := by
        rw [List.any_eq_true]
        exact ⟨0, List.mem_range.mpr hpos, by rw [hnone]; rfl⟩
      rw [hany, Bool.or_true, if_pos rfl]
    · by_cases h2f : 2 ≤ fast
      · have hnone : smaAt closes fast 0 = none := by
          unfold smaAt
          rw [if_neg (by omega)]
        have hany : ((List.range closes.length).any
            fun i => (smaAt closes fast i).isNone) = true := by
          rw [List.any_eq_true]
          exact ⟨0, List.mem_range.mpr hpos, by rw [hnone]; rfl⟩
        rw [hany, Bool.true_or, if_pos rfl]
      · have hfe : fast = 1 := by omega
        have hse : slow = 1 := by omega
        subst hfe hse
        have ha : ((List.range closes.length).any
            fun i => (smaAt closes 1 i).isNone) = false := by
          rw [List.any_eq_false]
          intro i _
          unfold smaAt
          rw [if_pos (by omega)]
          simp
        rw [ha]
        rw [if_neg (by simp)]
        cases hX : smaAt closes 1 (closes.length - 2) with
        | none => rfl
        | some fp =>
          cases hY : smaAt closes 1 (closes.length - 1) with
          | none => rfl
          | some fc =>
            dsimp only
            rw [if_neg (fun hc => lt_irrefl _ hc.2)]
            rw [if_neg (fun hc => lt_irrefl _ hc.2)]

/-- The allow-list policy of `agent_service.py` (`policies/whitelist.json`). -/
structure Policy where
  allowed_paths : List String
  allowed_cmds : List String
  require_approval : Bool
deriving Repr, DecidableEq

/-- `DEFAULT_POLICY` in `agent_service.py`. -/
def defaultPolicy : Policy :=
  { allowed_paths := ["bot.py", "dashboard.py", "risk_guard.py", "coop_bridge.py",
      "strategies/", "configs/", ".vscode/"]
    allowed_cmds := ["git", "python"]
    require_approval := true }

/-- `rel.replace("\\", "/")`: single-character replacement. -/
def normSlashes (s : String) : String :=
  String.mk (s.data.map fun c => if c = '\\' then '/' else c)

/-- Python `str.rstrip("/")`: drop all trailing slashes. -/
def rstripSlash (s : String) : String :=
  String.mk (s.data.reverse.dropWhile (fun c => c = '/')).reverse

/-- `is_allowed_path`: the path equals an allow-list entry, or lives under an
entry treated as a directory prefix. -/
def is_allowed_path (rel : String) (policy : Policy) : Bool :=
  let r := normSlashes rel
  policy.allowed_paths.any fun pat =>
    r == pat || ((rstripSlash pat).data ++ ['/']).isPrefixOf r.data

/-- Split a character list on `/`. -/
def splitSlash (l : List Char) : List (List Char) :=
  l.foldr (fun c acc =>
    if c = '/' then [] :: acc
    else match acc with
      | [] => [[c]]
      | a :: rest => (c :: a) :: rest) [[]]

/-- Walk path segments keeping the depth below the workspace root; `none`
when `..` would climb above it. -/
def walkSegs : ℕ → List (List Char) → Option ℕ
  | d, [] => some d
  | d, seg :: rest =>
    if seg = [] ∨ seg = ['.'] then walkSegs d rest
    else if seg = ['.', '.'] then
      match d with
      | 0 => none
      | Nat.succ d2 => walkSegs d2 rest
    else walkSegs (d + 1) rest

/-- `safe_path`'s guard, as a predicate: the resolved path would leave the
workspace root (absolute paths and `..` escapes). -/
def pathEscapes (rel : String) : Bool :=
  match rel.data with
  | '/' :: _ => true
  | l => (walkSegs 0 (splitSlash l)).isNone

/-- The outbox records `agent_service.py` writes (`write_out` targets); the
unified diff of a proposal is abstracted by the texts it is computed from. -/
inductive OutRec where
  | reject (path reason : String)
  | proposal (path before after : String)
  | applied (path : String)
  | pending (path : String)
  | error (msg : String)
deriving Repr, DecidableEq

/-- `action_write_file` over an explicit file system (path → content):
reject on a disallowed path; error (raised by `safe_path`, recorded by the
watcher) on an escaping path; otherwise write the proposal and apply the
content only when approval is not required or the approval poll
(`wait_for_approval`, here the `oracle` input) grants it. -/
def action_write_file (path content : String) (policy : Policy) (oracle : Bool)
    (fs : String → Option String) : (String → Option String) × List OutRec :=
  if is_allowed_path path policy = false then
    (fs, [OutRec.reject path "path not allowed"])
  else if pathEscapes path then
    (fs, [OutRec.error "Unsafe path outside workspace"])
  else
    let before := (fs path).getD ""
    let approve := if policy.require_approval = false then true else oracle
    if approve then
      (fun q => if q = path then some content else fs q,
       [OutRec.proposal path before content, OutRec.applied path])
    else
      (fs, [OutRec.proposal path before content, OutRec.pending path])

/-- C9: a write-file task on a path outside the allow-list produces exactly a
rejection record carrying the reason and leaves every file unchanged; and
whenever any file content changes, the path was allow-listed and either the
policy waived approval or the approval poll granted it. -/
theorem write_file_policy_gate (path content : String) (policy : Policy)
    (oracle : Bool) (fs : String → Option String) :
    (is_allowed_path path policy = false →
      action_write_file path content policy oracle fs
        = (fs, [OutRec.reject path "path not allowed"])) ∧
    (∀ q, (action_write_file path content policy oracle fs).1 q ≠ fs q →
      is_allowed_path path policy = true ∧
      (policy.require_approval = false ∨ oracle = true)) := by
  unfold action_write_file
  by_cases hal : is_allowed_path path policy = false
  · rw [if_pos hal]
    exact ⟨fun _ => rfl, fun q hq => absurd rfl hq⟩
  · rw [if_neg hal]
    have hal' : is_allowed_path path policy = true := by
      cases h : is_allowed_path path policy
      · exact absurd h hal
      · rfl
    refine ⟨fun hc => absurd hc hal, ?_⟩
    by_cases hesc : pathEscapes path = true
    · rw [if_pos hesc]
      exact fun q hq => absurd rfl hq
    · rw [if_neg hesc]
      dsimp only
      by_cases hreq : policy.require_approval = false
      · rw [if_pos hreq, if_pos rfl]
        exact fun q hq => ⟨hal', Or.inl hreq⟩
      · rw [if_neg hreq]
        by_cases hok : oracle = true
        · rw [hok, if_pos rfl]
          exact fun q hq => ⟨hal', Or.inr rfl⟩
        · have hok' : oracle = false := by
            cases h : oracle
            · rfl
            · exact absurd h hok
          rw [hok', if_neg (by simp)]
          exact fun q hq => absurd rfl hq

/-- A file system with one existing allow-listed file. -/
def exFs : String → Option String :=
  fun q => if q = "bot.py" then some "old" else none

theorem write_file_policy_gate_witness :
    action_write_file "secrets/key.txt" "x" defaultPolicy false exFs
      = (exFs, [OutRec.reject "secrets/key.txt" "path not allowed"]) ∧
    (is_allowed_path "bot.py" defaultPolicy = true ∧
      (defaultPolicy.require_approval = false ∨ true = true)) := by
  refine ⟨(write_file_policy_gate "secrets/key.txt" "x" defaultPolicy false exFs).1
    (by decide), ?_⟩
  exact (write_file_policy_gate "bot.py" "new" defaultPolicy true exFs).2 "bot.py"
    (by decide)
